import Mathlib

/-!
Shallow embedding of the MyLog structured-logging package (`logger.go`, the
boolean-flag revision, which the near-duplicate bitset revisions mirror).

A Go `*log.Logger` handle is modelled as an optional record carrying its
destination writer, its message-prefix string and its timestamp flag word;
`none` models a nil handle (the zero value before `Init`).  An emission
method returns `none` exactly when the Go code would dereference a nil
handle and panic, and otherwise returns the successor state together with
the list of destination writes it performed.  Wall-clock timestamps are
abstracted by recording the channel's flag word in each write event.
-/

namespace MyLog

/-- A value passed through the variadic argument list of the Go methods.
Only strings and integers are modelled; these cover the verbs the package
is used with. -/
inductive GoVal where
  | str (s : String)
  | int (n : Int)
  deriving DecidableEq

/-- Decimal digit character, as produced by Go integer formatting. -/
def digitChar (n : Nat) : Char :=
  match n % 10 with
  | 0 => '0'
  | 1 => '1'
  | 2 => '2'
  | 3 => '3'
  | 4 => '4'
  | 5 => '5'
  | 6 => '6'
  | 7 => '7'
  | 8 => '8'
  | _ => '9'

/-- Decimal digits of a natural number, most significant first
(Go `%d` on a nonnegative value). -/
def natToChars (n : Nat) : List Char :=
  if n < 10 then [digitChar n]
  else natToChars (n / 10) ++ [digitChar (n % 10)]
  termination_by n
  decreasing_by
    exact Nat.div_lt_self (by omega) (by omega)

/-- Rendering of one argument under the `%s`, `%d` and `%v` verbs. -/
def showVal : GoVal → String
  | .str s => s
  | .int (.ofNat n) => String.mk (natToChars n)
  | .int (.negSucc n) => String.mk ('-' :: natToChars (n + 1))

/-- Marker Go `fmt` inserts when a verb has no matching argument,
as in the rendering of a bad call: percent, bang, the verb, "(MISSING)". -/
def missingChars (c : Char) : List Char :=
  '%' :: '!' :: c :: "(MISSING)".data

/-- The formatting verbs this model substitutes. -/
def isVerb (c : Char) : Bool := c = 's' || c = 'd' || c = 'v'

/-- Core of `fmt.Sprintf`, restricted to the directives this package is
exercised with: `%%` renders a literal percent sign, `%s`, `%d` and `%v`
consume one argument; every other character is copied verbatim. -/
def sprintfAux : List Char → List GoVal → List Char
  | [], _ => []
  | [c], _ => [c]
  | c1 :: c2 :: rest, args =>
    if c1 = '%' then
      if c2 = '%' then '%' :: sprintfAux rest args
      else if isVerb c2 then
        match args with
        | [] => missingChars c2 ++ sprintfAux rest []
        | a :: as => (showVal a).data ++ sprintfAux rest as
      else c1 :: c2 :: sprintfAux rest args
    else c1 :: sprintfAux (c2 :: rest) args

/-- Model of `fmt.Sprintf` on a format template and its argument list. -/
def sprintf (format : String) (args : List GoVal) : String :=
  String.mk (sprintfAux format.data args)

/-- The ANSI escape character. -/
def esc : Char := Char.ofNat 27

/-- ANSI escape sequence: ESC, a bracket, the code, the letter m. -/
def escSeq (code : String) : String :=
  String.mk (esc :: '[' :: (code.data ++ ['m']))

/-- The wrapping performed by the `fatih/color` Sprint functions:
the text between a set-attribute sequence and the reset sequence. -/
def colorWrap (code : String) (s : String) : String :=
  escSeq code ++ s ++ escSeq "0"

/-- Model of `color.New(color.FgRed).SprintFunc()`. -/
def red (s : String) : String := colorWrap "31" s

/-- Model of `color.New(color.FgYellow).SprintFunc()`. -/
def yellow (s : String) : String := colorWrap "33" s

/-- Model of `color.New(color.FgGreen).SprintFunc()`. -/
def green (s : String) : String := colorWrap "32" s

/-- Returns `true` iff the string contains no ANSI escape character. -/
def escFree (s : String) : Bool := s.data.all (fun c => c != esc)

/-- A byte-stream destination: one of the writers handed in by the host
program, or the process's own standard error stream (`os.Stderr`). -/
inductive Writer where
  | handle (id : Nat)
  | osStderr
  deriving DecidableEq

/-- Model of a Go `log.Logger` value: destination, prefix, flag word. -/
structure GoLogger where
  out : Writer
  prefixStr : String
  flags : Nat
  deriving DecidableEq

/-- One destination write performed by `log.Logger.Printf`: the
destination, the prefix and flag word governing the rendered line, and
the formatted message text. -/
structure WriteEvent where
  dest : Writer
  prefixStr : String
  flags : Nat
  text : String
  deriving DecidableEq

/-- The write event produced by `g.Printf(format, args...)`. -/
def printfEvent (g : GoLogger) (format : String) (args : List GoVal) : WriteEvent :=
  ⟨g.out, g.prefixStr, g.flags, sprintf format args⟩

/-- Value of `log.Ldate`. -/
def Ldate : Nat := 1

/-- Value of `log.Ltime`. -/
def Ltime : Nat := 2

/-- The message-prefix-repositioning flag of the Go log package (value 64). -/
def LmsgPre : Nat := 64

/-- The flag word `Init` installs: date, time, prefix repositioning. -/
def stdFlags : Nat := Ldate ||| Ltime ||| LmsgPre

/-- The `Log` struct of logger.go: six channel handles, the buffering
flag, the line buffer, and the verbose/debug/color flags. -/
structure Log where
  stdVar : Option GoLogger
  infoVar : Option GoLogger
  debugVar : Option GoLogger
  warningVar : Option GoLogger
  errorVar : Option GoLogger
  panicVar : Option GoLogger
  flagEnableBuffer : Bool
  bufferData : List String
  flagVerbose : Bool
  flagDebug : Bool
  flagColor : Bool
  deriving DecidableEq

/-- The Go zero value of `Log`: nil handles, all flags false, nil slice. -/
def Log.zero : Log :=
  ⟨none, none, none, none, none, none, false, [], false, false, false⟩

/-- Method `Init` from logger.go: rebinds the six channels (panic always to the
process standard error) and resets the buffering flag.  Note that it
touches neither `bufferData` nor the verbose/debug/color flags. -/
def Log.Init (l : Log) (stdOut stdErr : Writer) : Log :=
  { l with
    stdVar := some ⟨stdOut, "       ", stdFlags⟩,
    infoVar := some ⟨stdOut, "INFO:  ", stdFlags⟩,
    warningVar := some ⟨stdOut, "WARN:  ", stdFlags⟩,
    debugVar := some ⟨stdErr, "DEBUG: ", stdFlags⟩,
    errorVar := some ⟨stdErr, "ERROR: ", stdFlags⟩,
    panicVar := some ⟨Writer.osStderr, "PANIC: ", stdFlags⟩,
    flagEnableBuffer := false }

/-- Method `SetFlags` from logger.go: one flag word pushed to all six channels. -/
def Log.SetFlags (l : Log) (flags : Nat) : Option Log :=
  match l.stdVar, l.infoVar, l.warningVar, l.debugVar, l.errorVar, l.panicVar with
  | some g0, some g1, some g2, some g3, some g4, some g5 =>
    some { l with
      stdVar := some { g0 with flags := flags },
      infoVar := some { g1 with flags := flags },
      warningVar := some { g2 with flags := flags },
      debugVar := some { g3 with flags := flags },
      errorVar := some { g4 with flags := flags },
      panicVar := some { g5 with flags := flags } }
  | _, _, _, _, _, _ => none

/-- Method `SetColorPrefix` from logger.go: when the color flag is set, overwrite
the five named-channel prefixes with color-wrapped variants; otherwise do
nothing at all.  The standard channel is never touched. -/
def Log.SetColorPrefixes (l : Log) : Option Log :=
  if l.flagColor then
    match l.infoVar, l.warningVar, l.debugVar, l.errorVar, l.panicVar with
    | some g1, some g2, some g3, some g4, some g5 =>
      some { l with
        infoVar := some { g1 with prefixStr := green "INFO:  " },
        warningVar := some { g2 with prefixStr := yellow "WARN:  " },
        debugVar := some { g3 with prefixStr := red "DEBUG: " },
        errorVar := some { g4 with prefixStr := red "ERROR: " },
        panicVar := some { g5 with prefixStr := red "PANIC: " } }
    | _, _, _, _, _ => none
  else some l

/-- Method `SetOutput` from logger.go: re-targets all six channels, the panic
channel included (it is pointed at the second writer). -/
def Log.SetOutput (l : Log) (stdOut stdErr : Writer) : Option Log :=
  match l.stdVar, l.infoVar, l.warningVar, l.debugVar, l.errorVar, l.panicVar with
  | some g0, some g1, some g2, some g3, some g4, some g5 =>
    some { l with
      stdVar := some { g0 with out := stdOut },
      infoVar := some { g1 with out := stdOut },
      warningVar := some { g2 with out := stdOut },
      debugVar := some { g3 with out := stdErr },
      errorVar := some { g4 with out := stdErr },
      panicVar := some { g5 with out := stdErr } }
  | _, _, _, _, _, _ => none

/-- Method `SetInteractive` from logger.go. -/
def Log.SetInteractive (l : Log) : Option Log :=
  match Log.SetFlags l LmsgPre with
  | none => none
  | some l1 => Log.SetColorPrefixes l1

/-- Method `EnableBuffer`. -/
def Log.EnableBuffer (l : Log) : Log := { l with flagEnableBuffer := true }

/-- Method `DisableBuffer`. -/
def Log.DisableBuffer (l : Log) : Log := { l with flagEnableBuffer := false }

/-- Method `SetVerbose`. -/
def Log.SetVerbose (l : Log) (b : Bool) : Log := { l with flagVerbose := b }

/-- Method `SetDebug`. -/
def Log.SetDebug (l : Log) (b : Bool) : Log := { l with flagDebug := b }

/-- Method `SetColor`. -/
def Log.SetColor (l : Log) (b : Bool) : Log := { l with flagColor := b }

/-- Method `AddBuffer` from logger.go: append the plain Sprintf rendering when
buffering is enabled, otherwise do nothing. -/
def Log.AddBuffer (l : Log) (format : String) (v : List GoVal) : Log :=
  if l.flagEnableBuffer then { l with bufferData := l.bufferData ++ [sprintf format v] }
  else l

/-- Model of `strings.Join`: elements separated by `sep`, no trailing separator. -/
def strJoin (sep : String) : List String → String
  | [] => ""
  | [x] => x
  | x :: y :: xs => x ++ sep ++ strJoin sep (y :: xs)

/-- Method `GetBuffer` from logger.go. -/
def Log.GetBuffer (l : Log) : String := strJoin "\n" l.bufferData

/-- Intrinsic `log`: print plainly on the standard channel, then buffer. -/
def Log.log (l : Log) (format : String) (v : List GoVal) : Option (Log × List WriteEvent) :=
  match l.stdVar with
  | none => none
  | some g => some (Log.AddBuffer l format v, [printfEvent g format v])

/-- Intrinsic `info`: green template on the info channel, plain buffer. -/
def Log.info (l : Log) (format : String) (v : List GoVal) : Option (Log × List WriteEvent) :=
  match l.infoVar with
  | none => none
  | some g => some (Log.AddBuffer l format v, [printfEvent g (green format) v])

/-- Intrinsic `warn`: yellow template on the warning channel, plain buffer. -/
def Log.warn (l : Log) (format : String) (v : List GoVal) : Option (Log × List WriteEvent) :=
  match l.warningVar with
  | none => none
  | some g => some (Log.AddBuffer l format v, [printfEvent g (yellow format) v])

/-- Intrinsic `debug`: red template on the debug channel, plain buffer. -/
def Log.debug (l : Log) (format : String) (v : List GoVal) : Option (Log × List WriteEvent) :=
  match l.debugVar with
  | none => none
  | some g => some (Log.AddBuffer l format v, [printfEvent g (red format) v])

/-- Intrinsic `error`: red template on the error channel, plain buffer. -/
def Log.error (l : Log) (format : String) (v : List GoVal) : Option (Log × List WriteEvent) :=
  match l.errorVar with
  | none => none
  | some g => some (Log.AddBuffer l format v, [printfEvent g (red format) v])

/-- Method `Panic`: red template on the panic channel; never buffered. -/
def Log.Panic (l : Log) (format : String) (v : List GoVal) : Option (Log × List WriteEvent) :=
  match l.panicVar with
  | none => none
  | some g => some (l, [printfEvent g (red format) v])

/-- Method `Standard`. -/
def Log.Standard (l : Log) (format : String) (v : List GoVal) : Option (Log × List WriteEvent) :=
  Log.log l format v

/-- Method `StandardInfo`. -/
def Log.StandardInfo (l : Log) (format : String) (v : List GoVal) : Option (Log × List WriteEvent) :=
  Log.info l format v

/-- Method `Verbose`: gated on the verbose flag; a complete no-op when clear. -/
def Log.Verbose (l : Log) (format : String) (v : List GoVal) : Option (Log × List WriteEvent) :=
  if l.flagVerbose then Log.log l format v else some (l, [])

/-- Method `VerboseInfo`: gated on the verbose flag. -/
def Log.VerboseInfo (l : Log) (format : String) (v : List GoVal) : Option (Log × List WriteEvent) :=
  if l.flagVerbose then Log.info l format v else some (l, [])

/-- Method `Debug`: gated on the debug flag. -/
def Log.Debug (l : Log) (format : String) (v : List GoVal) : Option (Log × List WriteEvent) :=
  if l.flagDebug then Log.debug l format v else some (l, [])

/-- Method `Warn`: unconditional. -/
def Log.Warn (l : Log) (format : String) (v : List GoVal) : Option (Log × List WriteEvent) :=
  Log.warn l format v

/-- Method `Error`: unconditional. -/
def Log.Error (l : Log) (format : String) (v : List GoVal) : Option (Log × List WriteEvent) :=
  Log.error l format v

/-- One call of the public API, for reasoning about call sequences. -/
inductive Op where
  | init (stdOut stdErr : Writer)
  | setFlags (n : Nat)
  | setColorPrefixes
  | setOutput (stdOut stdErr : Writer)
  | setInteractive
  | enableBuffer
  | disableBuffer
  | setVerbose (b : Bool)
  | setDebug (b : Bool)
  | setColor (b : Bool)
  | addBuffer (format : String) (v : List GoVal)
  | getBuffer
  | standard (format : String) (v : List GoVal)
  | standardInfo (format : String) (v : List GoVal)
  | verbose (format : String) (v : List GoVal)
  | verboseInfo (format : String) (v : List GoVal)
  | debug (format : String) (v : List GoVal)
  | warn (format : String) (v : List GoVal)
  | error (format : String) (v : List GoVal)
  | panic (format : String) (v : List GoVal)
  deriving DecidableEq

/-- Effect of one API call: successor state and destination writes, or
`none` on a nil-handle dereference. -/
def step (l : Log) : Op → Option (Log × List WriteEvent)
  | .init o e => some (Log.Init l o e, [])
  | .setFlags n =>
    match Log.SetFlags l n with
    | none => none
    | some l1 => some (l1, [])
  | .setColorPrefixes =>
    match Log.SetColorPrefixes l with
    | none => none
    | some l1 => some (l1, [])
  | .setOutput o e =>
    match Log.SetOutput l o e with
    | none => none
    | some l1 => some (l1, [])
  | .setInteractive =>
    match Log.SetInteractive l with
    | none => none
    | some l1 => some (l1, [])
  | .enableBuffer => some (Log.EnableBuffer l, [])
  | .disableBuffer => some (Log.DisableBuffer l, [])
  | .setVerbose b => some (Log.SetVerbose l b, [])
  | .setDebug b => some (Log.SetDebug l b, [])
  | .setColor b => some (Log.SetColor l b, [])
  | .addBuffer f v => some (Log.AddBuffer l f v, [])
  | .getBuffer => some (l, [])
  | .standard f v => Log.Standard l f v
  | .standardInfo f v => Log.StandardInfo l f v
  | .verbose f v => Log.Verbose l f v
  | .verboseInfo f v => Log.VerboseInfo l f v
  | .debug f v => Log.Debug l f v
  | .warn f v => Log.Warn l f v
  | .error f v => Log.Error l f v
  | .panic f v => Log.Panic l f v

/-- Run a sequence of API calls, accumulating destination writes. -/
def run (l : Log) : List Op → Option (Log × List WriteEvent)
  | [] => some (l, [])
  | op :: ops =>
    match step l op with
    | none => none
    | some (l1, ws1) =>
      match run l1 ops with
      | none => none
      | some (l2, ws2) => some (l2, ws1 ++ ws2)

/-- The format/argument payload an operation may hand to `AddBuffer`.
`Panic` has no payload here: it never buffers. -/
def opPayload : Op → List (String × List GoVal)
  | .standard f v => [(f, v)]
  | .standardInfo f v => [(f, v)]
  | .verbose f v => [(f, v)]
  | .verboseInfo f v => [(f, v)]
  | .debug f v => [(f, v)]
  | .warn f v => [(f, v)]
  | .error f v => [(f, v)]
  | .addBuffer f v => [(f, v)]
  | _ => []

/-- All buffer-eligible payloads of a call sequence, in call order. -/
def emissionPayloads : List Op → List (String × List GoVal)
  | [] => []
  | op :: ops => opPayload op ++ emissionPayloads ops

/-- Recognizes the `EnableBuffer` call. -/
def isEnableBufferOp : Op → Bool
  | .enableBuffer => true
  | _ => false

/-- The emission methods together with `GetBuffer`. -/
def isEmissionOrGet : Op → Bool
  | .standard _ _ => true
  | .standardInfo _ _ => true
  | .verbose _ _ => true
  | .verboseInfo _ _ => true
  | .debug _ _ => true
  | .warn _ _ => true
  | .error _ _ => true
  | .panic _ _ => true
  | .getBuffer => true
  | _ => false

/-- The four mode flags agree in the two states. -/
def flagsEq (l1 l : Log) : Prop :=
  l1.flagVerbose = l.flagVerbose ∧ l1.flagDebug = l.flagDebug ∧
    l1.flagColor = l.flagColor ∧ l1.flagEnableBuffer = l.flagEnableBuffer

/-- No escape character in one variadic argument. -/
def argEscFree : GoVal → Bool
  | .str s => escFree s
  | .int _ => true

/-- No escape character in a payload's template or arguments. -/
def payloadEscFree (p : String × List GoVal) : Bool :=
  escFree p.1 && p.2.all argEscFree

end MyLog

namespace MyLog

theorem digitChar_ne_esc (n : Nat) : digitChar n ≠ esc := by
  unfold digitChar
  split <;> decide

theorem natToChars_ne_esc (n : Nat) : ∀ c ∈ natToChars n, c ≠ esc := by
  induction n using Nat.strong_induction_on with
  | _ n ih =>
    rw [natToChars]
    split
    case isTrue h =>
      intro c hc
      rw [List.mem_singleton] at hc
      subst hc
      exact digitChar_ne_esc n
    case isFalse h =>
      intro c hc
      rcases List.mem_append.mp hc with hc | hc
      · exact ih (n / 10) (Nat.div_lt_self (by omega) (by omega)) c hc
      · rw [List.mem_singleton] at hc
        subst hc
        exact digitChar_ne_esc _

theorem showVal_escFree (a : GoVal) (h : argEscFree a = true) :
    ∀ c ∈ (showVal a).data, c ≠ esc := by
  cases a with
  | str s =>
    simp only [argEscFree, escFree, List.all_eq_true, bne_iff_ne, ne_eq] at h
    simpa [showVal] using h
  | int n =>
    cases n with
    | ofNat m => simpa [showVal] using natToChars_ne_esc m
    | negSucc m =>
      intro c hc
      simp only [showVal] at hc
      rcases List.mem_cons.mp hc with rfl | hc
      · decide
      · exact natToChars_ne_esc _ c hc

theorem missingChars_ne_esc (c : Char) (h : isVerb c = true) :
    ∀ x ∈ missingChars c, x ≠ esc := by
  have hc : c ≠ esc := by
    simp only [isVerb, Bool.or_eq_true, decide_eq_true_eq] at h
    rcases h with (h | h) | h <;> (subst h; decide)
  have hrest : ∀ y ∈ "(MISSING)".data, y ≠ esc := by decide
  intro x hx
  rcases List.mem_cons.mp hx with rfl | hx
  · decide
  rcases List.mem_cons.mp hx with rfl | hx
  · decide
  rcases List.mem_cons.mp hx with rfl | hx
  · exact hc
  · exact hrest x hx

theorem sprintfAux_cons (c : Char) (cs : List Char) (args : List GoVal)
    (h : ¬ c = '%') : sprintfAux (c :: cs) args = c :: sprintfAux cs args := by
  cases cs with
  | nil => rfl
  | cons c2 rest => simp [sprintfAux, h]

theorem sprintfAux_escFree (cs : List Char) (args : List GoVal)
    (hcs : ∀ c ∈ cs, c ≠ esc) (hargs : ∀ a ∈ args, argEscFree a = true) :
    ∀ c ∈ sprintfAux cs args, c ≠ esc := by
  induction cs, args using sprintfAux.induct with
  | case1 args => simp [sprintfAux]
  | case2 c args => simpa [sprintfAux] using hcs
  | case3 rest args ih =>
    rw [show sprintfAux ('%' :: '%' :: rest) args = '%' :: sprintfAux rest args from by
      simp [sprintfAux]]
    intro c hc
    rcases List.mem_cons.mp hc with rfl | hc
    · decide
    · exact ih (fun x hx => hcs x (by simp [hx])) hargs c hc
  | case4 c2 rest h1 h2 ih =>
    rw [show sprintfAux ('%' :: c2 :: rest) [] = missingChars c2 ++ sprintfAux rest [] from by
      simp [sprintfAux, h1, h2]]
    intro c hc
    rcases List.mem_append.mp hc with hc | hc
    · exact missingChars_ne_esc c2 h2 c hc
    · exact ih (fun x hx => hcs x (by simp [hx])) hargs c hc
  | case5 c2 rest h1 h2 a as ih =>
    rw [show sprintfAux ('%' :: c2 :: rest) (a :: as) =
        (showVal a).data ++ sprintfAux rest as from by
      simp [sprintfAux, h1, h2]]
    intro c hc
    rcases List.mem_append.mp hc with hc | hc
    · exact showVal_escFree a (hargs a (by simp)) c hc
    · exact ih (fun x hx => hcs x (by simp [hx])) (fun x hx => hargs x (by simp [hx])) c hc
  | case6 c2 rest args h1 h2 ih =>
    rw [show sprintfAux ('%' :: c2 :: rest) args = '%' :: c2 :: sprintfAux rest args from by
      simp [sprintfAux, h1, h2]]
    intro x hx0
    rcases List.mem_cons.mp hx0 with rfl | hx0
    · decide
    rcases List.mem_cons.mp hx0 with rfl | hx0
    · exact hcs x (by simp)
    · exact ih (fun y hy => hcs y (by simp [hy])) hargs x hx0
  | case7 c1 c2 rest args h1 ih =>
    rw [sprintfAux_cons c1 (c2 :: rest) args h1]
    intro x hx0
    rcases List.mem_cons.mp hx0 with rfl | hx0
    · exact hcs x (by simp)
    · exact ih (fun y hy => hcs y (by simp [hy])) hargs x hx0

theorem escFree_iff (s : String) : escFree s = true ↔ ∀ c ∈ s.data, c ≠ esc := by
  simp [escFree, List.all_eq_true]

theorem sprintf_escFree (p : String × List GoVal) (h : payloadEscFree p = true) :
    escFree (sprintf p.1 p.2) = true := by
  obtain ⟨hf, hv⟩ := Bool.and_eq_true_iff.mp h
  rw [escFree_iff]
  have : (sprintf p.1 p.2).data = sprintfAux p.1.data p.2 := rfl
  rw [this]
  exact sprintfAux_escFree p.1.data p.2 ((escFree_iff p.1).mp hf)
    (by simpa [List.all_eq_true] using hv)

theorem green_head (f : String) :
    ∃ t, (green f).data = esc :: t := by
  refine ⟨('[' :: ("32".data ++ ['m']) ++ f.data) ++ (escSeq "0").data, ?_⟩
  show ((escSeq "32" ++ f) ++ escSeq "0").data = _
  rw [String.data_append, String.data_append]
  show (esc :: '[' :: ("32".data ++ ['m'])) ++ f.data ++ (escSeq "0").data = _
  simp [List.cons_append]

theorem green_sprintf_not_escFree (f : String) (v : List GoVal) :
    escFree (sprintf (green f) v) = false := by
  obtain ⟨t, ht⟩ := green_head f
  have h1 : (sprintf (green f) v).data = esc :: sprintfAux t v := by
    show sprintfAux (green f).data v = _
    rw [ht]
    exact sprintfAux_cons esc t v (by decide)
  simp [escFree, h1]

end MyLog

namespace MyLog

theorem strJoin_append_last (sep x : String) (xs : List String) (h : xs ≠ []) :
    strJoin sep (xs ++ [x]) = strJoin sep xs ++ sep ++ x := by
  induction xs with
  | nil => simp at h
  | cons a t ih =>
    cases t with
    | nil => rfl
    | cons b t2 =>
      have ih2 := ih (by simp)
      show strJoin sep (a :: ((b :: t2) ++ [x])) = _
      rw [show ((b :: t2) ++ [x]) = b :: (t2 ++ [x]) from rfl]
      rw [strJoin, strJoin]
      rw [show b :: (t2 ++ [x]) = (b :: t2) ++ [x] from rfl]
      rw [ih2]
      simp [String.append_assoc]

theorem addBuffer_disj (l : Log) (f : String) (v : List GoVal) :
    (Log.AddBuffer l f v).bufferData = l.bufferData ∨
      (l.flagEnableBuffer = true ∧
        (Log.AddBuffer l f v).bufferData = l.bufferData ++ [sprintf f v]) := by
  unfold Log.AddBuffer
  cases hb : l.flagEnableBuffer with
  | false => left; simp [hb]
  | true => right; exact ⟨rfl, by simp [hb]⟩

theorem AddBuffer_flagsEq (l : Log) (f : String) (v : List GoVal) :
    flagsEq (Log.AddBuffer l f v) l := by
  unfold Log.AddBuffer flagsEq
  split <;> exact ⟨rfl, rfl, rfl, rfl⟩

theorem log_state (l l1 : Log) (ws : List WriteEvent) (f : String) (v : List GoVal)
    (h : Log.log l f v = some (l1, ws)) : l1 = Log.AddBuffer l f v := by
  unfold Log.log at h
  cases hs : l.stdVar with
  | none => rw [hs] at h; simp at h
  | some g => rw [hs] at h; simp only [Option.some.injEq, Prod.mk.injEq] at h; exact h.1.symm

theorem info_state (l l1 : Log) (ws : List WriteEvent) (f : String) (v : List GoVal)
    (h : Log.info l f v = some (l1, ws)) : l1 = Log.AddBuffer l f v := by
  unfold Log.info at h
  cases hs : l.infoVar with
  | none => rw [hs] at h; simp at h
  | some g => rw [hs] at h; simp only [Option.some.injEq, Prod.mk.injEq] at h; exact h.1.symm

theorem warn_state (l l1 : Log) (ws : List WriteEvent) (f : String) (v : List GoVal)
    (h : Log.warn l f v = some (l1, ws)) : l1 = Log.AddBuffer l f v := by
  unfold Log.warn at h
  cases hs : l.warningVar with
  | none => rw [hs] at h; simp at h
  | some g => rw [hs] at h; simp only [Option.some.injEq, Prod.mk.injEq] at h; exact h.1.symm

theorem debug_state (l l1 : Log) (ws : List WriteEvent) (f : String) (v : List GoVal)
    (h : Log.debug l f v = some (l1, ws)) : l1 = Log.AddBuffer l f v := by
  unfold Log.debug at h
  cases hs : l.debugVar with
  | none => rw [hs] at h; simp at h
  | some g => rw [hs] at h; simp only [Option.some.injEq, Prod.mk.injEq] at h; exact h.1.symm

theorem error_state (l l1 : Log) (ws : List WriteEvent) (f : String) (v : List GoVal)
    (h : Log.error l f v = some (l1, ws)) : l1 = Log.AddBuffer l f v := by
  unfold Log.error at h
  cases hs : l.errorVar with
  | none => rw [hs] at h; simp at h
  | some g => rw [hs] at h; simp only [Option.some.injEq, Prod.mk.injEq] at h; exact h.1.symm

theorem Panic_state (l l1 : Log) (ws : List WriteEvent) (f : String) (v : List GoVal)
    (h : Log.Panic l f v = some (l1, ws)) : l1 = l := by
  unfold Log.Panic at h
  cases hs : l.panicVar with
  | none => rw [hs] at h; simp at h
  | some g => rw [hs] at h; simp only [Option.some.injEq, Prod.mk.injEq] at h; exact h.1.symm

theorem SetFlags_state (l : Log) (n : Nat) (l1 : Log) (h : Log.SetFlags l n = some l1) :
    l1.bufferData = l.bufferData ∧ flagsEq l1 l := by
  unfold Log.SetFlags at h
  split at h
  · rw [Option.some.injEq] at h
    subst h
    exact ⟨rfl, rfl, rfl, rfl, rfl⟩
  · simp at h

theorem SetColorPrefixes_state (l l1 : Log) (h : Log.SetColorPrefixes l = some l1) :
    l1.bufferData = l.bufferData ∧ flagsEq l1 l := by
  unfold Log.SetColorPrefixes at h
  split at h
  · split at h
    · rw [Option.some.injEq] at h
      subst h
      exact ⟨rfl, rfl, rfl, rfl, rfl⟩
    · simp at h
  · rw [Option.some.injEq] at h
    subst h
    exact ⟨rfl, rfl, rfl, rfl, rfl⟩

theorem SetOutput_state (l : Log) (o e : Writer) (l1 : Log)
    (h : Log.SetOutput l o e = some l1) :
    l1.bufferData = l.bufferData ∧ flagsEq l1 l := by
  unfold Log.SetOutput at h
  split at h
  · rw [Option.some.injEq] at h
    subst h
    exact ⟨rfl, rfl, rfl, rfl, rfl⟩
  · simp at h

theorem SetInteractive_state (l l1 : Log) (h : Log.SetInteractive l = some l1) :
    l1.bufferData = l.bufferData ∧ flagsEq l1 l := by
  unfold Log.SetInteractive at h
  split at h
  · simp at h
  case _ lm heq =>
    obtain ⟨hb1, hv1, hd1, hc1, he1⟩ := SetFlags_state l LmsgPre lm heq
    obtain ⟨hb2, hv2, hd2, hc2, he2⟩ := SetColorPrefixes_state lm l1 h
    exact ⟨hb2.trans hb1, hv2.trans hv1, hd2.trans hd1, hc2.trans hc1, he2.trans he1⟩

end MyLog

namespace MyLog

theorem step_bufferData (l : Log) (op : Op) (l1 : Log) (ws : List WriteEvent)
    (h : step l op = some (l1, ws)) :
    l1.bufferData = l.bufferData ∨
      (l.flagEnableBuffer = true ∧
        ∃ p ∈ opPayload op, l1.bufferData = l.bufferData ++ [sprintf p.1 p.2]) := by
  cases op with
  | init o e =>
    simp only [step, Option.some.injEq, Prod.mk.injEq] at h
    obtain ⟨rfl, rfl⟩ := h.symm.imp Eq.symm Eq.symm
    left; rfl
  | setFlags n =>
    simp only [step] at h
    split at h
    · simp at h
    case _ lm heq =>
      simp only [Option.some.injEq, Prod.mk.injEq] at h
      obtain ⟨rfl, rfl⟩ := h
      exact Or.inl (SetFlags_state l n lm heq).1
  | setColorPrefixes =>
    simp only [step] at h
    split at h
    · simp at h
    case _ lm heq =>
      simp only [Option.some.injEq, Prod.mk.injEq] at h
      obtain ⟨rfl, rfl⟩ := h
      exact Or.inl (SetColorPrefixes_state l lm heq).1
  | setOutput o e =>
    simp only [step] at h
    split at h
    · simp at h
    case _ lm heq =>
      simp only [Option.some.injEq, Prod.mk.injEq] at h
      obtain ⟨rfl, rfl⟩ := h
      exact Or.inl (SetOutput_state l o e lm heq).1
  | setInteractive =>
    simp only [step] at h
    split at h
    · simp at h
    case _ lm heq =>
      simp only [Option.some.injEq, Prod.mk.injEq] at h
      obtain ⟨rfl, rfl⟩ := h
      exact Or.inl (SetInteractive_state l lm heq).1
  | enableBuffer =>
    simp only [step, Option.some.injEq, Prod.mk.injEq] at h
    obtain ⟨rfl, rfl⟩ := h.symm.imp Eq.symm Eq.symm
    left; rfl
  | disableBuffer =>
    simp only [step, Option.some.injEq, Prod.mk.injEq] at h
    obtain ⟨rfl, rfl⟩ := h.symm.imp Eq.symm Eq.symm
    left; rfl
  | setVerbose b =>
    simp only [step, Option.some.injEq, Prod.mk.injEq] at h
    obtain ⟨rfl, rfl⟩ := h.symm.imp Eq.symm Eq.symm
    left; rfl
  | setDebug b =>
    simp only [step, Option.some.injEq, Prod.mk.injEq] at h
    obtain ⟨rfl, rfl⟩ := h.symm.imp Eq.symm Eq.symm
    left; rfl
  | setColor b =>
    simp only [step, Option.some.injEq, Prod.mk.injEq] at h
    obtain ⟨rfl, rfl⟩ := h.symm.imp Eq.symm Eq.symm
    left; rfl
  | addBuffer f v =>
    simp only [step, Option.some.injEq, Prod.mk.injEq] at h
    obtain ⟨h1, rfl⟩ := h
    subst h1
    rcases addBuffer_disj l f v with hd | ⟨hb, hd⟩
    · exact Or.inl hd
    · exact Or.inr ⟨hb, ⟨(f, v), by simp [opPayload], hd⟩⟩
  | getBuffer =>
    simp only [step, Option.some.injEq, Prod.mk.injEq] at h
    obtain ⟨rfl, rfl⟩ := h.symm.imp Eq.symm Eq.symm
    left; rfl
  | standard f v =>
    simp only [step, Log.Standard] at h
    have h1 := log_state l l1 ws f v h
    subst h1
    rcases addBuffer_disj l f v with hd | ⟨hb, hd⟩
    · exact Or.inl hd
    · exact Or.inr ⟨hb, ⟨(f, v), by simp [opPayload], hd⟩⟩
  | standardInfo f v =>
    simp only [step, Log.StandardInfo] at h
    have h1 := info_state l l1 ws f v h
    subst h1
    rcases addBuffer_disj l f v with hd | ⟨hb, hd⟩
    · exact Or.inl hd
    · exact Or.inr ⟨hb, ⟨(f, v), by simp [opPayload], hd⟩⟩
  | verbose f v =>
    simp only [step, Log.Verbose] at h
    split at h
    · have h1 := log_state l l1 ws f v h
      subst h1
      rcases addBuffer_disj l f v with hd | ⟨hb, hd⟩
      · exact Or.inl hd
      · exact Or.inr ⟨hb, ⟨(f, v), by simp [opPayload], hd⟩⟩
    · simp only [Option.some.injEq, Prod.mk.injEq] at h
      obtain ⟨rfl, rfl⟩ := h.symm.imp Eq.symm Eq.symm
      left; rfl
  | verboseInfo f v =>
    simp only [step, Log.VerboseInfo] at h
    split at h
    · have h1 := info_state l l1 ws f v h
      subst h1
      rcases addBuffer_disj l f v with hd | ⟨hb, hd⟩
      · exact Or.inl hd
      · exact Or.inr ⟨hb, ⟨(f, v), by simp [opPayload], hd⟩⟩
    · simp only [Option.some.injEq, Prod.mk.injEq] at h
      obtain ⟨rfl, rfl⟩ := h.symm.imp Eq.symm Eq.symm
      left; rfl
  | debug f v =>
    simp only [step, Log.Debug] at h
    split at h
    · have h1 := debug_state l l1 ws f v h
      subst h1
      rcases addBuffer_disj l f v with hd | ⟨hb, hd⟩
      · exact Or.inl hd
      · exact Or.inr ⟨hb, ⟨(f, v), by simp [opPayload], hd⟩⟩
    · simp only [Option.some.injEq, Prod.mk.injEq] at h
      obtain ⟨rfl, rfl⟩ := h.symm.imp Eq.symm Eq.symm
      left; rfl
  | warn f v =>
    simp only [step, Log.Warn] at h
    have h1 := warn_state l l1 ws f v h
    subst h1
    rcases addBuffer_disj l f v with hd | ⟨hb, hd⟩
    · exact Or.inl hd
    · exact Or.inr ⟨hb, ⟨(f, v), by simp [opPayload], hd⟩⟩
  | error f v =>
    simp only [step, Log.Error] at h
    have h1 := error_state l l1 ws f v h
    subst h1
    rcases addBuffer_disj l f v with hd | ⟨hb, hd⟩
    · exact Or.inl hd
    · exact Or.inr ⟨hb, ⟨(f, v), by simp [opPayload], hd⟩⟩
  | panic f v =>
    simp only [step] at h
    have h1 := Panic_state l l1 ws f v h
    subst h1
    left; rfl

end MyLog

namespace MyLog

theorem step_flagFalse (l : Log) (op : Op) (l1 : Log) (ws : List WriteEvent)
    (h : step l op = some (l1, ws)) (hop : isEnableBufferOp op = false)
    (hb : l.flagEnableBuffer = false) : l1.flagEnableBuffer = false := by
  cases op with
  | init o e =>
    simp only [step, Option.some.injEq, Prod.mk.injEq] at h
    obtain ⟨rfl, rfl⟩ := h.symm.imp Eq.symm Eq.symm
    rfl
  | setFlags n =>
    simp only [step] at h
    split at h
    · simp at h
    case _ lm heq =>
      simp only [Option.some.injEq, Prod.mk.injEq] at h
      obtain ⟨rfl, rfl⟩ := h
      exact (SetFlags_state l n lm heq).2.2.2.2.trans hb
  | setColorPrefixes =>
    simp only [step] at h
    split at h
    · simp at h
    case _ lm heq =>
      simp only [Option.some.injEq, Prod.mk.injEq] at h
      obtain ⟨rfl, rfl⟩ := h
      exact (SetColorPrefixes_state l lm heq).2.2.2.2.trans hb
  | setOutput o e =>
    simp only [step] at h
    split at h
    · simp at h
    case _ lm heq =>
      simp only [Option.some.injEq, Prod.mk.injEq] at h
      obtain ⟨rfl, rfl⟩ := h
      exact (SetOutput_state l o e lm heq).2.2.2.2.trans hb
  | setInteractive =>
    simp only [step] at h
    split at h
    · simp at h
    case _ lm heq =>
      simp only [Option.some.injEq, Prod.mk.injEq] at h
      obtain ⟨rfl, rfl⟩ := h
      exact (SetInteractive_state l lm heq).2.2.2.2.trans hb
  | enableBuffer => simp [isEnableBufferOp] at hop
  | disableBuffer =>
    simp only [step, Option.some.injEq, Prod.mk.injEq] at h
    obtain ⟨rfl, rfl⟩ := h.symm.imp Eq.symm Eq.symm
    rfl
  | setVerbose b =>
    simp only [step, Option.some.injEq, Prod.mk.injEq] at h
    obtain ⟨rfl, rfl⟩ := h.symm.imp Eq.symm Eq.symm
    exact hb
  | setDebug b =>
    simp only [step, Option.some.injEq, Prod.mk.injEq] at h
    obtain ⟨rfl, rfl⟩ := h.symm.imp Eq.symm Eq.symm
    exact hb
  | setColor b =>
    simp only [step, Option.some.injEq, Prod.mk.injEq] at h
    obtain ⟨rfl, rfl⟩ := h.symm.imp Eq.symm Eq.symm
    exact hb
  | addBuffer f v =>
    simp only [step, Option.some.injEq, Prod.mk.injEq] at h
    obtain ⟨h1, rfl⟩ := h
    subst h1
    exact (AddBuffer_flagsEq l f v).2.2.2.trans hb
  | getBuffer =>
    simp only [step, Option.some.injEq, Prod.mk.injEq] at h
    obtain ⟨rfl, rfl⟩ := h.symm.imp Eq.symm Eq.symm
    exact hb
  | standard f v =>
    simp only [step, Log.Standard] at h
    have h1 := log_state l l1 ws f v h
    subst h1
    exact (AddBuffer_flagsEq l f v).2.2.2.trans hb
  | standardInfo f v =>
    simp only [step, Log.StandardInfo] at h
    have h1 := info_state l l1 ws f v h
    subst h1
    exact (AddBuffer_flagsEq l f v).2.2.2.trans hb
  | verbose f v =>
    simp only [step, Log.Verbose] at h
    split at h
    · have h1 := log_state l l1 ws f v h
      subst h1
      exact (AddBuffer_flagsEq l f v).2.2.2.trans hb
    · simp only [Option.some.injEq, Prod.mk.injEq] at h
      obtain ⟨rfl, rfl⟩ := h.symm.imp Eq.symm Eq.symm
      exact hb
  | verboseInfo f v =>
    simp only [step, Log.VerboseInfo] at h
    split at h
    · have h1 := info_state l l1 ws f v h
      subst h1
      exact (AddBuffer_flagsEq l f v).2.2.2.trans hb
    · simp only [Option.some.injEq, Prod.mk.injEq] at h
      obtain ⟨rfl, rfl⟩ := h.symm.imp Eq.symm Eq.symm
      exact hb
  | debug f v =>
    simp only [step, Log.Debug] at h
    split at h
    · have h1 := debug_state l l1 ws f v h
      subst h1
      exact (AddBuffer_flagsEq l f v).2.2.2.trans hb
    · simp only [Option.some.injEq, Prod.mk.injEq] at h
      obtain ⟨rfl, rfl⟩ := h.symm.imp Eq.symm Eq.symm
      exact hb
  | warn f v =>
    simp only [step, Log.Warn] at h
    have h1 := warn_state l l1 ws f v h
    subst h1
    exact (AddBuffer_flagsEq l f v).2.2.2.trans hb
  | error f v =>
    simp only [step, Log.Error] at h
    have h1 := error_state l l1 ws f v h
    subst h1
    exact (AddBuffer_flagsEq l f v).2.2.2.trans hb
  | panic f v =>
    simp only [step] at h
    have h1 := Panic_state l l1 ws f v h
    subst h1
    exact hb

theorem run_append (l : Log) (ops1 ops2 : List Op) :
    run l (ops1 ++ ops2) =
      match run l ops1 with
      | none => none
      | some (l1, ws1) =>
        match run l1 ops2 with
        | none => none
        | some (l2, ws2) => some (l2, ws1 ++ ws2) := by
  induction ops1 generalizing l with
  | nil =>
    simp only [List.nil_append, run]
    cases hr : run l ops2 with
    | none => rfl
    | some p =>
      obtain ⟨l2, ws2⟩ := p
      simp
  | cons op ops ih =>
    simp only [List.cons_append, run]
    cases hs : step l op with
    | none => rfl
    | some p =>
      obtain ⟨lm, wsm⟩ := p
      dsimp only
      rw [List.append_eq, ih lm]
      cases h1 : run lm ops with
      | none => rfl
      | some q =>
        obtain ⟨l1, ws1⟩ := q
        dsimp only
        cases h2 : run l1 ops2 with
        | none => rfl
        | some r =>
          obtain ⟨l2, ws2⟩ := r
          simp

theorem run_provenance (ops : List Op) :
    ∀ l l2 ws, run l ops = some (l2, ws) →
      ∀ b ∈ l2.bufferData, b ∈ l.bufferData ∨
        ∃ p ∈ emissionPayloads ops, b = sprintf p.1 p.2 := by
  induction ops with
  | nil =>
    intro l l2 ws h b hb
    simp only [run, Option.some.injEq, Prod.mk.injEq] at h
    obtain ⟨rfl, rfl⟩ := h.symm.imp Eq.symm Eq.symm
    exact Or.inl hb
  | cons op ops ih =>
    intro l l2 ws h b hb
    simp only [run] at h
    cases hs : step l op with
    | none => rw [hs] at h; simp at h
    | some p =>
      obtain ⟨l1, ws1⟩ := p
      rw [hs] at h
      dsimp only at h
      cases hr : run l1 ops with
      | none => rw [hr] at h; simp at h
      | some q =>
        obtain ⟨l2', ws2⟩ := q
        rw [hr] at h
        dsimp only at h
        simp only [Option.some.injEq, Prod.mk.injEq] at h
        obtain ⟨rfl, rfl⟩ := h.symm.imp Eq.symm Eq.symm
        rcases ih l1 l2 ws2 hr b hb with hb1 | ⟨p, hp, rfl⟩
        · rcases step_bufferData l op l1 ws1 hs with hB | ⟨hbe, ⟨p, hp, hB⟩⟩
          · rw [hB] at hb1
            exact Or.inl hb1
          · rw [hB] at hb1
            rcases List.mem_append.mp hb1 with h1 | h1
            · exact Or.inl h1
            · refine Or.inr ⟨p, ?_, ?_⟩
              · exact List.mem_append.mpr (Or.inl hp)
              · rw [List.mem_singleton] at h1
                exact h1
        · refine Or.inr ⟨p, ?_, rfl⟩
          show p ∈ emissionPayloads (op :: ops)
          exact List.mem_append.mpr (Or.inr hp)

theorem run_noEnable (ops : List Op) :
    ∀ l l2 ws, run l ops = some (l2, ws) →
      (∀ op ∈ ops, isEnableBufferOp op = false) →
      l.flagEnableBuffer = false →
      l2.flagEnableBuffer = false ∧ l2.bufferData = l.bufferData := by
  induction ops with
  | nil =>
    intro l l2 ws h _ hb
    simp only [run, Option.some.injEq, Prod.mk.injEq] at h
    obtain ⟨rfl, rfl⟩ := h.symm.imp Eq.symm Eq.symm
    exact ⟨hb, rfl⟩
  | cons op ops ih =>
    intro l l2 ws h hops hb
    simp only [run] at h
    cases hs : step l op with
    | none => rw [hs] at h; simp at h
    | some p =>
      obtain ⟨l1, ws1⟩ := p
      rw [hs] at h
      dsimp only at h
      cases hr : run l1 ops with
      | none => rw [hr] at h; simp at h
      | some q =>
        obtain ⟨l2', ws2⟩ := q
        rw [hr] at h
        dsimp only at h
        simp only [Option.some.injEq, Prod.mk.injEq] at h
        obtain ⟨rfl, rfl⟩ := h.symm.imp Eq.symm Eq.symm
        have hopf : isEnableBufferOp op = false := hops op (by simp)
        have h1 : l1.flagEnableBuffer = false := step_flagFalse l op l1 ws1 hs hopf hb
        have hbuf : l1.bufferData = l.bufferData := by
          rcases step_bufferData l op l1 ws1 hs with hB | ⟨hbe, _⟩
          · exact hB
          · rw [hb] at hbe
            exact absurd hbe (by simp)
        obtain ⟨h2, h3⟩ := ih l1 l2 ws2 hr (fun o ho => hops o (by simp [ho])) h1
        exact ⟨h2, h3.trans hbuf⟩

end MyLog

namespace MyLog

/-- C9: on the zero-value, never-initialized Logger (no channel handles,
empty buffer) `GetBuffer` is safe and returns the empty string. -/
theorem C9_getBuffer_zero_value :
    Log.zero.stdVar = none ∧ Log.zero.panicVar = none ∧
      Log.zero.bufferData = [] ∧ Log.GetBuffer Log.zero = "" :=
  ⟨rfl, rfl, rfl, rfl⟩

/-- C5: `GetBuffer` joins the buffered lines in insertion order with
single newline separators and no trailing separator, returns the empty
string on an empty buffer, and does not modify the logger state (the
`getBuffer` step returns the state unchanged, so consecutive calls with
no intervening buffered emission return identical strings). -/
theorem C5_getBuffer_join (l : Log) (x : String) :
    (l.bufferData = [] → Log.GetBuffer l = "")
    ∧ (l.bufferData = [] →
        Log.GetBuffer { l with bufferData := l.bufferData ++ [x] } = x)
    ∧ (l.bufferData ≠ [] →
        Log.GetBuffer { l with bufferData := l.bufferData ++ [x] } =
          Log.GetBuffer l ++ "\n" ++ x)
    ∧ step l Op.getBuffer = some (l, []) := by
  refine ⟨?_, ?_, ?_, rfl⟩
  · intro h
    unfold Log.GetBuffer
    rw [h]
    rfl
  · intro h
    show strJoin "\n" (l.bufferData ++ [x]) = x
    rw [h]
    rfl
  · intro h
    show strJoin "\n" (l.bufferData ++ [x]) = strJoin "\n" l.bufferData ++ "\n" ++ x
    exact strJoin_append_last "\n" x l.bufferData h

/-- C5 witness at a one-line buffer. -/
theorem C5_getBuffer_join_witness :
    ({ Log.zero with bufferData := ["a"] } : Log).bufferData ≠ [] ∧
      Log.GetBuffer { ({ Log.zero with bufferData := ["a"] } : Log) with
          bufferData := ({ Log.zero with bufferData := ["a"] } : Log).bufferData ++ ["b"] } =
        Log.GetBuffer ({ Log.zero with bufferData := ["a"] } : Log) ++ "\n" ++ "b" :=
  ⟨by decide, (C5_getBuffer_join { Log.zero with bufferData := ["a"] } "b").2.2.1 (by decide)⟩

/-- C3: on an initialized state, `Verbose` and `VerboseInfo` are complete
no-ops (no destination write, state and buffer unchanged) when the
verbose flag is clear, as is `Debug` when the debug flag is clear; with
the corresponding flag set each performs exactly one destination write. -/
theorem C3_gated_emissions (l : Log) (gs gi gd : GoLogger) (f : String) (v : List GoVal)
    (hs : l.stdVar = some gs) (hi : l.infoVar = some gi) (hd : l.debugVar = some gd) :
    (l.flagVerbose = false →
      Log.Verbose l f v = some (l, []) ∧ Log.VerboseInfo l f v = some (l, []))
    ∧ (l.flagDebug = false → Log.Debug l f v = some (l, []))
    ∧ (l.flagVerbose = true →
      Log.Verbose l f v = some (Log.AddBuffer l f v, [printfEvent gs f v])
      ∧ Log.VerboseInfo l f v = some (Log.AddBuffer l f v, [printfEvent gi (green f) v]))
    ∧ (l.flagDebug = true →
      Log.Debug l f v = some (Log.AddBuffer l f v, [printfEvent gd (red f) v])) := by
  refine ⟨?_, ?_, ?_, ?_⟩
  · intro h
    unfold Log.Verbose Log.VerboseInfo
    rw [h]
    simp
  · intro h
    unfold Log.Debug
    rw [h]
    simp
  · intro h
    unfold Log.Verbose Log.VerboseInfo Log.log Log.info
    rw [h, hs, hi]
    simp
  · intro h
    unfold Log.Debug Log.debug
    rw [h, hd]
    simp

/-- C3 witness on a freshly initialized logger (verbose flag clear). -/
theorem C3_gated_emissions_witness :
    (Log.Init Log.zero (Writer.handle 0) (Writer.handle 1)).stdVar =
        some ⟨Writer.handle 0, "       ", stdFlags⟩ ∧
    (Log.Init Log.zero (Writer.handle 0) (Writer.handle 1)).infoVar =
        some ⟨Writer.handle 0, "INFO:  ", stdFlags⟩ ∧
    (Log.Init Log.zero (Writer.handle 0) (Writer.handle 1)).debugVar =
        some ⟨Writer.handle 1, "DEBUG: ", stdFlags⟩ ∧
    Log.Verbose (Log.Init Log.zero (Writer.handle 0) (Writer.handle 1)) "x" [] =
      some (Log.Init Log.zero (Writer.handle 0) (Writer.handle 1), []) :=
  ⟨rfl, rfl, rfl,
    ((C3_gated_emissions (Log.Init Log.zero (Writer.handle 0) (Writer.handle 1))
        ⟨Writer.handle 0, "       ", stdFlags⟩ ⟨Writer.handle 0, "INFO:  ", stdFlags⟩
        ⟨Writer.handle 1, "DEBUG: ", stdFlags⟩ "x" [] rfl rfl rfl).1 rfl).1⟩

/-- C4: `Panic` performs exactly one write, to the panic channel, and
returns the state unchanged — in particular the line buffer is untouched
even when the buffering flag is set. -/
theorem C4_panic_never_buffers (l : Log) (gp : GoLogger) (f : String) (v : List GoVal)
    (hp : l.panicVar = some gp) :
    Log.Panic l f v = some (l, [printfEvent gp (red f) v]) := by
  unfold Log.Panic
  rw [hp]

/-- C4 witness on an initialized logger with buffering enabled. -/
theorem C4_panic_never_buffers_witness :
    (Log.EnableBuffer (Log.Init Log.zero (Writer.handle 0) (Writer.handle 1))).panicVar =
        some ⟨Writer.osStderr, "PANIC: ", stdFlags⟩ ∧
    Log.Panic (Log.EnableBuffer (Log.Init Log.zero (Writer.handle 0) (Writer.handle 1))) "x" [] =
      some (Log.EnableBuffer (Log.Init Log.zero (Writer.handle 0) (Writer.handle 1)),
        [printfEvent ⟨Writer.osStderr, "PANIC: ", stdFlags⟩ (red "x") []]) :=
  ⟨rfl, C4_panic_never_buffers _ _ "x" [] rfl⟩

end MyLog

namespace MyLog

/-- C7: with the color flag set, `SetColorPrefix` overwrites the info
prefix with a green-wrapped variant, the warning prefix with a yellow
one, and the debug, error and panic prefixes with red ones, never
touching the standard channel; with the color flag clear it changes no
prefix at all (the state is returned unmodified). -/
theorem C7_setColorPrefixes_spec (l : Log) :
    (l.flagColor = false → Log.SetColorPrefixes l = some l)
    ∧ (∀ gi gw gd ge gp, l.flagColor = true →
        l.infoVar = some gi → l.warningVar = some gw → l.debugVar = some gd →
        l.errorVar = some ge → l.panicVar = some gp →
        Log.SetColorPrefixes l = some { l with
          infoVar := some { gi with prefixStr := green "INFO:  " },
          warningVar := some { gw with prefixStr := yellow "WARN:  " },
          debugVar := some { gd with prefixStr := red "DEBUG: " },
          errorVar := some { ge with prefixStr := red "ERROR: " },
          panicVar := some { gp with prefixStr := red "PANIC: " } })
    ∧ (∀ l1, Log.SetColorPrefixes l = some l1 → l1.stdVar = l.stdVar) := by
  refine ⟨?_, ?_, ?_⟩
  · intro h
    unfold Log.SetColorPrefixes
    rw [h]
    simp
  · intro gi gw gd ge gp hc hi hw hd he hp
    unfold Log.SetColorPrefixes
    rw [hc, hi, hw, hd, he, hp]
    simp
  · intro l1 h
    unfold Log.SetColorPrefixes at h
    split at h
    · split at h
      · rw [Option.some.injEq] at h
        subst h
        rfl
      · simp at h
    · rw [Option.some.injEq] at h
      subst h
      rfl

/-- C7 witness on an initialized logger with the color flag set. -/
theorem C7_setColorPrefixes_spec_witness :
    (Log.SetColor (Log.Init Log.zero (Writer.handle 0) (Writer.handle 1)) true).flagColor
        = true ∧
    Log.SetColorPrefixes (Log.SetColor (Log.Init Log.zero (Writer.handle 0) (Writer.handle 1)) true) =
      some { (Log.SetColor (Log.Init Log.zero (Writer.handle 0) (Writer.handle 1)) true) with
        infoVar := some { (⟨Writer.handle 0, "INFO:  ", stdFlags⟩ : GoLogger) with
          prefixStr := green "INFO:  " },
        warningVar := some { (⟨Writer.handle 0, "WARN:  ", stdFlags⟩ : GoLogger) with
          prefixStr := yellow "WARN:  " },
        debugVar := some { (⟨Writer.handle 1, "DEBUG: ", stdFlags⟩ : GoLogger) with
          prefixStr := red "DEBUG: " },
        errorVar := some { (⟨Writer.handle 1, "ERROR: ", stdFlags⟩ : GoLogger) with
          prefixStr := red "ERROR: " },
        panicVar := some { (⟨Writer.osStderr, "PANIC: ", stdFlags⟩ : GoLogger) with
          prefixStr := red "PANIC: " } } :=
  ⟨rfl,
    (C7_setColorPrefixes_spec
        (Log.SetColor (Log.Init Log.zero (Writer.handle 0) (Writer.handle 1)) true)).2.1
      ⟨Writer.handle 0, "INFO:  ", stdFlags⟩ ⟨Writer.handle 0, "WARN:  ", stdFlags⟩
      ⟨Writer.handle 1, "DEBUG: ", stdFlags⟩ ⟨Writer.handle 1, "ERROR: ", stdFlags⟩
      ⟨Writer.osStderr, "PANIC: ", stdFlags⟩ rfl rfl rfl rfl rfl rfl⟩

/-- C10: every emission method (`Standard`, `StandardInfo`, `Verbose`,
`VerboseInfo`, `Debug`, `Warn`, `Error`, `Panic`) and `GetBuffer` leaves
all four mode flags unchanged. -/
theorem C10_emissions_preserve_flags (l : Log) (op : Op) (l1 : Log) (ws : List WriteEvent)
    (hop : isEmissionOrGet op = true) (h : step l op = some (l1, ws)) :
    flagsEq l1 l := by
  cases op with
  | init o e => simp [isEmissionOrGet] at hop
  | setFlags n => simp [isEmissionOrGet] at hop
  | setColorPrefixes => simp [isEmissionOrGet] at hop
  | setOutput o e => simp [isEmissionOrGet] at hop
  | setInteractive => simp [isEmissionOrGet] at hop
  | enableBuffer => simp [isEmissionOrGet] at hop
  | disableBuffer => simp [isEmissionOrGet] at hop
  | setVerbose b => simp [isEmissionOrGet] at hop
  | setDebug b => simp [isEmissionOrGet] at hop
  | setColor b => simp [isEmissionOrGet] at hop
  | addBuffer f v => simp [isEmissionOrGet] at hop
  | getBuffer =>
    simp only [step, Option.some.injEq, Prod.mk.injEq] at h
    obtain ⟨rfl, rfl⟩ := h.symm.imp Eq.symm Eq.symm
    exact ⟨rfl, rfl, rfl, rfl⟩
  | standard f v =>
    simp only [step, Log.Standard] at h
    have h1 := log_state l l1 ws f v h
    subst h1
    exact AddBuffer_flagsEq l f v
  | standardInfo f v =>
    simp only [step, Log.StandardInfo] at h
    have h1 := info_state l l1 ws f v h
    subst h1
    exact AddBuffer_flagsEq l f v
  | verbose f v =>
    simp only [step, Log.Verbose] at h
    split at h
    · have h1 := log_state l l1 ws f v h
      subst h1
      exact AddBuffer_flagsEq l f v
    · simp only [Option.some.injEq, Prod.mk.injEq] at h
      obtain ⟨rfl, rfl⟩ := h.symm.imp Eq.symm Eq.symm
      exact ⟨rfl, rfl, rfl, rfl⟩
  | verboseInfo f v =>
    simp only [step, Log.VerboseInfo] at h
    split at h
    · have h1 := info_state l l1 ws f v h
      subst h1
      exact AddBuffer_flagsEq l f v
    · simp only [Option.some.injEq, Prod.mk.injEq] at h
      obtain ⟨rfl, rfl⟩ := h.symm.imp Eq.symm Eq.symm
      exact ⟨rfl, rfl, rfl, rfl⟩
  | debug f v =>
    simp only [step, Log.Debug] at h
    split at h
    · have h1 := debug_state l l1 ws f v h
      subst h1
      exact AddBuffer_flagsEq l f v
    · simp only [Option.some.injEq, Prod.mk.injEq] at h
      obtain ⟨rfl, rfl⟩ := h.symm.imp Eq.symm Eq.symm
      exact ⟨rfl, rfl, rfl, rfl⟩
  | warn f v =>
    simp only [step, Log.Warn] at h
    have h1 := warn_state l l1 ws f v h
    subst h1
    exact AddBuffer_flagsEq l f v
  | error f v =>
    simp only [step, Log.Error] at h
    have h1 := error_state l l1 ws f v h
    subst h1
    exact AddBuffer_flagsEq l f v
  | panic f v =>
    simp only [step] at h
    have h1 := Panic_state l l1 ws f v h
    subst h1
    exact ⟨rfl, rfl, rfl, rfl⟩

/-- C10 witness: a `Standard` emission on an initialized logger. -/
theorem C10_emissions_preserve_flags_witness :
    isEmissionOrGet (Op.standard "x" []) = true ∧
      flagsEq (Log.AddBuffer (Log.Init Log.zero (Writer.handle 0) (Writer.handle 1)) "x" [])
        (Log.Init Log.zero (Writer.handle 0) (Writer.handle 1)) :=
  ⟨rfl,
    C10_emissions_preserve_flags (Log.Init Log.zero (Writer.handle 0) (Writer.handle 1))
      (Op.standard "x" [])
      (Log.AddBuffer (Log.Init Log.zero (Writer.handle 0) (Writer.handle 1)) "x" [])
      [printfEvent ⟨Writer.handle 0, "       ", stdFlags⟩ "x" []] rfl rfl⟩

end MyLog

namespace MyLog

/-- C1 counterexample: after `SetOutput(handle 2, handle 3)` on an
initialized logger, a `Panic` call writes to `handle 3`, not to the
process standard error destination the panic channel had before the
`SetOutput` call, refuting the claim that `SetOutput` leaves the panic
channel untouched. -/
theorem C1_counterexample :
    (run Log.zero [Op.init (Writer.handle 0) (Writer.handle 1),
        Op.setOutput (Writer.handle 2) (Writer.handle 3),
        Op.panic "x" []]).map (fun r => r.2.map WriteEvent.dest) =
      some [Writer.handle 3] ∧
    (Log.Init Log.zero (Writer.handle 0) (Writer.handle 1)).panicVar.map GoLogger.out =
      some Writer.osStderr ∧
    Writer.handle 3 ≠ Writer.osStderr :=
  ⟨by decide, rfl, by decide⟩

/-- C1 amended: `SetOutput` re-targets all six channels, the panic
channel included — the standard, info and warning channels to the first
writer and the debug, error and panic channels to the second — so a
subsequent `Panic` writes to the second writer passed to `SetOutput`. -/
theorem C1_setOutput_retargets_all (l : Log) (g0 g1 g2 g3 g4 g5 : GoLogger)
    (o e : Writer) (f : String) (v : List GoVal)
    (h0 : l.stdVar = some g0) (h1 : l.infoVar = some g1) (h2 : l.warningVar = some g2)
    (h3 : l.debugVar = some g3) (h4 : l.errorVar = some g4) (h5 : l.panicVar = some g5) :
    Log.SetOutput l o e = some { l with
      stdVar := some { g0 with out := o },
      infoVar := some { g1 with out := o },
      warningVar := some { g2 with out := o },
      debugVar := some { g3 with out := e },
      errorVar := some { g4 with out := e },
      panicVar := some { g5 with out := e } }
    ∧ (∀ l1, Log.SetOutput l o e = some l1 →
        (Log.Panic l1 f v).map (fun r => r.2.map WriteEvent.dest) = some [e]) := by
  have hso : Log.SetOutput l o e = some { l with
      stdVar := some { g0 with out := o },
      infoVar := some { g1 with out := o },
      warningVar := some { g2 with out := o },
      debugVar := some { g3 with out := e },
      errorVar := some { g4 with out := e },
      panicVar := some { g5 with out := e } } := by
    unfold Log.SetOutput
    rw [h0, h1, h2, h3, h4, h5]
  refine ⟨hso, ?_⟩
  intro l1 hl1
  rw [hso, Option.some.injEq] at hl1
  subst hl1
  rfl

/-- C1 amended, witnessed on a freshly initialized logger. -/
theorem C1_setOutput_retargets_all_witness :
    (Log.Init Log.zero (Writer.handle 0) (Writer.handle 1)).panicVar =
        some ⟨Writer.osStderr, "PANIC: ", stdFlags⟩ ∧
    (Log.SetOutput (Log.Init Log.zero (Writer.handle 0) (Writer.handle 1))
        (Writer.handle 2) (Writer.handle 3) = some
      { (Log.Init Log.zero (Writer.handle 0) (Writer.handle 1)) with
        stdVar := some { (⟨Writer.handle 0, "       ", stdFlags⟩ : GoLogger) with
          out := Writer.handle 2 },
        infoVar := some { (⟨Writer.handle 0, "INFO:  ", stdFlags⟩ : GoLogger) with
          out := Writer.handle 2 },
        warningVar := some { (⟨Writer.handle 0, "WARN:  ", stdFlags⟩ : GoLogger) with
          out := Writer.handle 2 },
        debugVar := some { (⟨Writer.handle 1, "DEBUG: ", stdFlags⟩ : GoLogger) with
          out := Writer.handle 3 },
        errorVar := some { (⟨Writer.handle 1, "ERROR: ", stdFlags⟩ : GoLogger) with
          out := Writer.handle 3 },
        panicVar := some { (⟨Writer.osStderr, "PANIC: ", stdFlags⟩ : GoLogger) with
          out := Writer.handle 3 } }
    ∧ (∀ l1, Log.SetOutput (Log.Init Log.zero (Writer.handle 0) (Writer.handle 1))
          (Writer.handle 2) (Writer.handle 3) = some l1 →
        (Log.Panic l1 "x" []).map (fun r => r.2.map WriteEvent.dest) =
          some [Writer.handle 3])) :=
  ⟨rfl,
    C1_setOutput_retargets_all (Log.Init Log.zero (Writer.handle 0) (Writer.handle 1))
      ⟨Writer.handle 0, "       ", stdFlags⟩ ⟨Writer.handle 0, "INFO:  ", stdFlags⟩
      ⟨Writer.handle 0, "WARN:  ", stdFlags⟩ ⟨Writer.handle 1, "DEBUG: ", stdFlags⟩
      ⟨Writer.handle 1, "ERROR: ", stdFlags⟩ ⟨Writer.osStderr, "PANIC: ", stdFlags⟩
      (Writer.handle 2) (Writer.handle 3) "x" [] rfl rfl rfl rfl rfl rfl⟩

/-- C2 counterexample: re-initializing a logger on which the verbose flag
was set and a line was buffered leaves the verbose flag set and the
buffer nonempty, so `GetBuffer` immediately after `Init` returns the
previously buffered line rather than the empty string. -/
theorem C2_counterexample :
    (run Log.zero [Op.init (Writer.handle 0) (Writer.handle 1),
        Op.setVerbose true, Op.enableBuffer, Op.standard "x" [],
        Op.init (Writer.handle 0) (Writer.handle 1)]).map
      (fun r => (r.1.flagVerbose, Log.GetBuffer r.1)) = some (true, "x") ∧
    ((true, "x") : Bool × String) ≠ ((false, "") : Bool × String) :=
  ⟨by decide, by decide⟩

/-- C2 amended: `Init` clears only the buffering flag; the verbose, debug
and color flags and the line buffer keep their prior values, so
`GetBuffer` immediately after initialization returns the empty string
exactly when the buffer was already empty — as on a freshly constructed
Logger. -/
theorem C2_init_effects (l : Log) (o e : Writer) :
    (Log.Init l o e).flagEnableBuffer = false
    ∧ (Log.Init l o e).flagVerbose = l.flagVerbose
    ∧ (Log.Init l o e).flagDebug = l.flagDebug
    ∧ (Log.Init l o e).flagColor = l.flagColor
    ∧ (Log.Init l o e).bufferData = l.bufferData
    ∧ (l.bufferData = [] → Log.GetBuffer (Log.Init l o e) = "") := by
  refine ⟨rfl, rfl, rfl, rfl, rfl, ?_⟩
  intro h
  show strJoin "\n" (Log.Init l o e).bufferData = ""
  rw [show (Log.Init l o e).bufferData = l.bufferData from rfl, h]
  rfl

/-- C2 amended, witnessed on the fresh zero-value logger. -/
theorem C2_init_effects_witness :
    Log.zero.bufferData = [] ∧
      Log.GetBuffer (Log.Init Log.zero (Writer.handle 0) (Writer.handle 1)) = "" :=
  ⟨rfl, (C2_init_effects Log.zero (Writer.handle 0) (Writer.handle 1)).2.2.2.2.2 rfl⟩

end MyLog

namespace MyLog

/-- C6: invariant over every state reachable from the zero value: when
the emitted templates and arguments are escape-free, every line stored in
the buffer is the plain Sprintf application of one of the emitted
templates to its arguments and contains no ANSI escape sequence; hence a
destination write whose text does contain escapes (as every green-wrapped
rendering does, third conjunct) is never the string appended to the
buffer. -/
theorem C6_buffer_holds_pre_color_text (ops : List Op) (l2 : Log) (ws : List WriteEvent)
    (hrun : run Log.zero ops = some (l2, ws))
    (hesc : (emissionPayloads ops).all payloadEscFree = true) :
    (∀ b ∈ l2.bufferData,
      (∃ p ∈ emissionPayloads ops, b = sprintf p.1 p.2) ∧ escFree b = true)
    ∧ (∀ e ∈ ws, escFree e.text = false → ∀ b ∈ l2.bufferData, e.text ≠ b)
    ∧ (∀ f v, escFree (sprintf (green f) v) = false) := by
  have hb : ∀ b ∈ l2.bufferData, ∃ p ∈ emissionPayloads ops, b = sprintf p.1 p.2 := by
    intro b hbmem
    rcases run_provenance ops Log.zero l2 ws hrun b hbmem with h | h
    · simp [Log.zero] at h
    · exact h
  have hfree : ∀ b ∈ l2.bufferData, escFree b = true := by
    intro b hbmem
    obtain ⟨p, hp, rfl⟩ := hb b hbmem
    exact sprintf_escFree p (List.all_eq_true.mp hesc p hp)
  refine ⟨fun b hb2 => ⟨hb b hb2, hfree b hb2⟩, ?_, fun f v => green_sprintf_not_escFree f v⟩
  intro e hemem hfalse b hb2 heq
  have h1 := hfree b hb2
  rw [← heq] at h1
  rw [h1] at hfalse
  cases hfalse

/-- C6 witness: one buffered `StandardInfo` emission. -/
theorem C6_buffer_holds_pre_color_text_witness :
    (emissionPayloads [Op.init (Writer.handle 0) (Writer.handle 1),
        Op.enableBuffer, Op.standardInfo "m" []]).all payloadEscFree = true ∧
    ((∃ p ∈ emissionPayloads [Op.init (Writer.handle 0) (Writer.handle 1),
        Op.enableBuffer, Op.standardInfo "m" []], "m" = sprintf p.1 p.2) ∧
      escFree "m" = true) :=
  ⟨by decide,
    (C6_buffer_holds_pre_color_text
        [Op.init (Writer.handle 0) (Writer.handle 1), Op.enableBuffer,
          Op.standardInfo "m" []]
        { stdVar := some ⟨Writer.handle 0, "       ", stdFlags⟩,
          infoVar := some ⟨Writer.handle 0, "INFO:  ", stdFlags⟩,
          debugVar := some ⟨Writer.handle 1, "DEBUG: ", stdFlags⟩,
          warningVar := some ⟨Writer.handle 0, "WARN:  ", stdFlags⟩,
          errorVar := some ⟨Writer.handle 1, "ERROR: ", stdFlags⟩,
          panicVar := some ⟨Writer.osStderr, "PANIC: ", stdFlags⟩,
          flagEnableBuffer := true,
          bufferData := ["m"],
          flagVerbose := false,
          flagDebug := false,
          flagColor := false }
        [printfEvent ⟨Writer.handle 0, "INFO:  ", stdFlags⟩ (green "m") []]
        (by decide) (by decide)).1 "m" (by decide)⟩

/-- C8: no retroactive capture: when buffering is never enabled during a
prefix of the call sequence starting from the zero value, the buffer is
still empty when `EnableBuffer` runs, and afterwards every line in the
buffer is the Sprintf rendering of a payload emitted in the suffix. -/
theorem C8_no_retroactive_capture (pre post : List Op) (l2 : Log) (ws : List WriteEvent)
    (hpre : ∀ op ∈ pre, isEnableBufferOp op = false)
    (hrun : run Log.zero (pre ++ Op.enableBuffer :: post) = some (l2, ws)) :
    ∀ b ∈ l2.bufferData, ∃ p ∈ emissionPayloads post, b = sprintf p.1 p.2 := by
  rw [run_append] at hrun
  cases h1 : run Log.zero pre with
  | none => rw [h1] at hrun; simp at hrun
  | some q =>
    obtain ⟨l1, ws1⟩ := q
    rw [h1] at hrun
    dsimp only at hrun
    obtain ⟨hflag, hbuf⟩ := run_noEnable pre Log.zero l1 ws1 h1 hpre rfl
    cases h2 : run l1 (Op.enableBuffer :: post) with
    | none => rw [h2] at hrun; simp at hrun
    | some q2 =>
      obtain ⟨l2m, ws2⟩ := q2
      rw [h2] at hrun
      dsimp only at hrun
      simp only [Option.some.injEq, Prod.mk.injEq] at hrun
      obtain ⟨rfl, rfl⟩ := hrun.symm.imp Eq.symm Eq.symm
      simp only [run, step] at h2
      cases h3 : run (Log.EnableBuffer l1) post with
      | none => rw [h3] at h2; simp at h2
      | some q3 =>
        obtain ⟨l3, ws3⟩ := q3
        rw [h3] at h2
        dsimp only at h2
        simp only [Option.some.injEq, Prod.mk.injEq] at h2
        obtain ⟨rfl, rfl⟩ := h2.symm.imp Eq.symm Eq.symm
        intro b hbmem
        rcases run_provenance post (Log.EnableBuffer l1) _ _ h3 b hbmem with h | h
        · rw [show (Log.EnableBuffer l1).bufferData = l1.bufferData from rfl, hbuf] at h
          simp [Log.zero] at h
        · exact h

/-- C8 witness: one pre-enable emission, one post-enable emission; the
buffer ends up holding only the post-enable line. -/
theorem C8_no_retroactive_capture_witness :
    (∀ op ∈ [Op.init (Writer.handle 0) (Writer.handle 1), Op.standard "a" []],
      isEnableBufferOp op = false) ∧
    (∃ p ∈ emissionPayloads [Op.standard "b" []], "b" = sprintf p.1 p.2) :=
  ⟨by decide,
    C8_no_retroactive_capture
      [Op.init (Writer.handle 0) (Writer.handle 1), Op.standard "a" []]
      [Op.standard "b" []]
      { stdVar := some ⟨Writer.handle 0, "       ", stdFlags⟩,
        infoVar := some ⟨Writer.handle 0, "INFO:  ", stdFlags⟩,
        debugVar := some ⟨Writer.handle 1, "DEBUG: ", stdFlags⟩,
        warningVar := some ⟨Writer.handle 0, "WARN:  ", stdFlags⟩,
        errorVar := some ⟨Writer.handle 1, "ERROR: ", stdFlags⟩,
        panicVar := some ⟨Writer.osStderr, "PANIC: ", stdFlags⟩,
        flagEnableBuffer := true,
        bufferData := ["b"],
        flagVerbose := false,
        flagDebug := false,
        flagColor := false }
      [printfEvent ⟨Writer.handle 0, "       ", stdFlags⟩ "a" [],
        printfEvent ⟨Writer.handle 0, "       ", stdFlags⟩ "b" []]
      (by decide) (by decide) "b" (by decide)⟩

end MyLog
